import Mathlib

/-!
Verification model of the post service's hot-content caching and
view-accounting core (Go sources under repo/redis, repo/mysql, service,
tasks, mq/consumer).  Machine integers are modelled as Nat/Int (the Go
code never relies on overflow in the verified paths), Redis and MySQL
states are explicit values, and fallible calls return Except with a
failure-injection environment standing for the I/O errors the Go code
branches on.
-/

namespace PostSvc

/-- A per-post dedup filter (Redis key with prefix post_view_bloom, managed by
the RedisBloom module).  The members added by BF.ADD are kept exactly; the
probabilistic behaviour of BF.EXISTS is the possibility of false positives,
modelled by the fp predicate.  A Bloom filter has no false negatives. -/
structure BloomFilter where
  members : List String
  fp : String → Bool

/-- BF.RESERVE creates a filter with no bits set: it reports no member and
has no false positives yet. -/
def freshFilter : BloomFilter := { members := [], fp := fun _ => false }

/-- BF.EXISTS: an added member is always reported (no false negatives); a
non-member may be reported through fp (false positive). -/
def bfExists (f : BloomFilter) (u : String) : Bool :=
  f.members.contains u || f.fp u

/-- BF.ADD: record the member.  Adding is idempotent. -/
def bfAdd (f : BloomFilter) (u : String) : BloomFilter :=
  { f with members := u :: f.members }

/-- The Redis state touched by postViewRepository.IncrementViewCount
(repo/redis/post_view.go): per-post dedup filters (post_view_bloom keys),
per-post view counters (post_view_count keys, INCR treats a missing key
as 0), and the global ranking sorted set post_rank (score per member). -/
structure KVState where
  filters : Nat → Option BloomFilter
  counters : Nat → Nat
  postRank : Nat → Option Int

/-- Pointwise update of a map-like function at one key. -/
def updFn {α : Type} (f : Nat → α) (k : Nat) (v : α) : Nat → α :=
  fun i => if i = k then v else f i

/-- Failure injection for the Redis commands IncrementViewCount issues, in
program order: BF.RESERVE (a failure other than the tolerated
item-exists reply), BF.EXISTS, BF.ADD, EXPIRE, and the Lua INCR+ZADD
script. -/
structure IncrEnv where
  reserveFails : Bool
  existsFails : Bool
  addFails : Bool
  expireFails : Bool
  luaFails : Bool

/-- Error kinds IncrementViewCount reports to its caller (wrapped fmt.Errorf
values in the Go code). -/
inductive IncrErr where
  | reserveErr
  | existsErr
  | addErr
  | luaErr
deriving DecidableEq, Repr

/-- Outcome of one IncrementViewCount call: the returned error value, the
Redis state afterwards, whether the Lua counter-and-ranking step ran
(counted view), and whether an EXPIRE failure was logged (the only
failure the code swallows with a warning). -/
structure IncrStep where
  result : Except IncrErr Unit
  state : KVState
  counted : Bool
  warnLogged : Bool

/-- postViewRepository.IncrementViewCount (repo/redis/post_view.go, newer
variant in src/unnamed/part_004).  Steps: (1) BF.RESERVE ensures the
filter exists (an existing filter answers item-exists, treated as
normal); (2) BF.EXISTS, and a probably-present user returns nil with no
further effect; (3) BF.ADD then EXPIRE, where only the EXPIRE failure is
logged and not returned; (4) the Lua script INCR the counter and ZADD
the new value as the post's score in post_rank, atomically. -/
def incrementViewCount (env : IncrEnv) (s : KVState) (postID : Nat) (userID : String) :
    IncrStep :=
  if env.reserveFails then ⟨.error .reserveErr, s, false, false⟩
  else
    let s1 : KVState :=
      match s.filters postID with
      | none => { s with filters := updFn s.filters postID (some freshFilter) }
      | some _ => s
    if env.existsFails then ⟨.error .existsErr, s1, false, false⟩
    else
      let f := (s1.filters postID).getD freshFilter
      if bfExists f userID then ⟨.ok (), s1, false, false⟩
      else if env.addFails then ⟨.error .addErr, s1, false, false⟩
      else
        let s2 : KVState :=
          { s1 with filters := updFn s1.filters postID (some (bfAdd f userID)) }
        if env.luaFails then ⟨.error .luaErr, s2, false, env.expireFails⟩
        else
          let newCount := s2.counters postID + 1
          ⟨.ok (),
           { s2 with
             counters := updFn s2.counters postID newCount,
             postRank := updFn s2.postRank postID (some (Int.ofNat newCount)) },
           true, env.expireFails⟩

/-- Repeated IncrementViewCount calls for one (post, user) pair, each under
its own failure environment, run within one filter TTL window (the
filter never expires between calls). -/
def incrementViewCountN (envs : List IncrEnv) (s : KVState) (postID : Nat)
    (userID : String) : KVState :=
  envs.foldl (fun st e => (incrementViewCount e st postID userID).state) s

/-- Whether the dedup filter of postID records userID as an added member. -/
def filterHasUser (s : KVState) (postID : Nat) (userID : String) : Bool :=
  match s.filters postID with
  | some f => f.members.contains userID
  | none => false

/-- The BF.EXISTS answer IncrementViewCount sees after ensuring the filter
exists: the stored filter when there is one, else a fresh filter. -/
def bfQueryState (s : KVState) (postID : Nat) (userID : String) : Bool :=
  bfExists ((s.filters postID).getD freshFilter) userID

/-- Environment in which every Redis command succeeds. -/
def envOK : IncrEnv := ⟨false, false, false, false, false⟩

/-- Environment in which only BF.ADD fails. -/
def envAddFail : IncrEnv := ⟨false, false, true, false, false⟩

/-- Environment in which only EXPIRE (the TTL refresh) fails. -/
def envExpireFail : IncrEnv := ⟨false, false, false, true, false⟩

/-- Redis state with no filters, all counters at zero and an empty ranking. -/
def kv0 : KVState := ⟨fun _ => none, fun _ => 0, fun _ => none⟩

/-- Redis state in which the dedup filter of post 1 already records user u
and the counter of post 1 stands at 5. -/
def kvSeen : KVState :=
  ⟨fun i => if i = 1 then some ⟨["u"], fun _ => false⟩ else none,
   fun _ => 5, fun _ => none⟩

/-- A row of the posts table (models/entities, fields the verified paths
touch).  deleted models the GORM soft-delete flag (deleted_at non-null). -/
structure Post where
  id : Nat
  title : String
  status : Nat
  viewCount : Int
  officialTag : Nat
  deleted : Bool
deriving DecidableEq, Repr

/-- A row of the post_details table. -/
structure PostDetail where
  id : Nat
  postID : Nat
  content : String
  contactInfo : String
  deleted : Bool
deriving DecidableEq, Repr

/-- A row of the post_detail_images table (models/entities PostDetailImage;
the display-order column is display_order). -/
structure PostDetailImage where
  id : Nat
  postDetailID : Nat
  imageURL : String
  displayOrder : Int
  objectKey : String
  deleted : Bool
deriving DecidableEq, Repr

/-- The durable store: the three tables, rows in storage order. -/
structure MySQLState where
  posts : List Post
  postDetails : List PostDetail
  postDetailImages : List PostDetailImage
deriving DecidableEq, Repr

/-- postRepository.DeletePost (repo/mysql/post.go): GORM soft delete, i.e.
UPDATE ... SET deleted_at WHERE id = ? AND deleted_at IS NULL; matching
zero rows is not an error. -/
def softDeletePost (id : Nat) (db : MySQLState) : MySQLState :=
  { db with posts := db.posts.map fun p =>
      if p.id = id && !p.deleted then { p with deleted := true } else p }

/-- postDetailRepository.DeletePostDetailByPostID (repo/mysql/post_detail.go):
soft delete of the detail rows with the given post_id. -/
def softDeletePostDetailByPostID (postID : Nat) (db : MySQLState) : MySQLState :=
  { db with postDetails := db.postDetails.map fun d =>
      if d.postID = postID && !d.deleted then { d with deleted := true } else d }

/-- postDetailImageRepository.DeleteImagesByPostDetailID
(repo/mysql/post_detail_image.go): soft delete of the image rows with the
given post_detail_id. -/
def softDeleteImagesByPostDetailID (postDetailID : Nat) (db : MySQLState) :
    MySQLState :=
  { db with postDetailImages := db.postDetailImages.map fun i =>
      if i.postDetailID = postDetailID && !i.deleted then { i with deleted := true }
      else i }

/-- postDetailRepository.GetPostDetailByPostID: first non-deleted detail row
with the given post_id. -/
def getPostDetailByPostID (db : MySQLState) (postID : Nat) : Option PostDetail :=
  db.postDetails.find? fun d => !d.deleted && d.postID = postID

/-- postAdminService.DeletePostByAdmin (service/admin.go): within one
transaction soft-delete the post then its detail (the image rows are not
touched), then emit the deleted event.  The repos report no error for
missing rows, so in this model the transaction always commits.  The Bool
is the deleted-event emission. -/
def deletePostByAdmin (postID : Nat) (db : MySQLState) : MySQLState × Bool :=
  (softDeletePostDetailByPostID postID (softDeletePost postID db), true)

/-- postService.DeletePost (service/post.go): resolve the detail id; when a
detail exists, within one transaction soft-delete the images by detail
id, the detail and the post; when it does not, soft-delete only the
post; then emit the deleted event. -/
def deletePost (postID : Nat) (db : MySQLState) : MySQLState × Bool :=
  match getPostDetailByPostID db postID with
  | some d =>
      (softDeletePost postID
        (softDeletePostDetailByPostID postID
          (softDeleteImagesByPostDetailID d.id db)), true)
  | none => (softDeletePost postID db, true)

/-- postBatchOperationsRepository.GetPostsByIDs (repo/mysql/batch_for_cache.go):
WHERE id IN ids with the GORM soft-delete scope. -/
def getPostsByIDs (ids : List Nat) (db : MySQLState) : List Post :=
  db.posts.filter fun p => !p.deleted && ids.contains p.id

/-- postBatchOperationsRepository.GetPostDetailsByPostIDs: WHERE post_id IN
ids with the soft-delete scope. -/
def getPostDetailsByPostIDs (ids : List Nat) (db : MySQLState) : List PostDetail :=
  db.postDetails.filter fun d => !d.deleted && ids.contains d.postID

/-- postBatchOperationsRepository.BatchGetPostDetailImages: the rows with
post_detail_id IN ids, grouped by post_detail_id; a requested id with no
images maps to the empty list and an id that was not requested is absent
from the Go map (here the empty list).  The SQL orders by
post_detail_id asc and by the double-quoted literal "order" — in MySQL
(no ANSI_QUOTES) a constant string, not the display_order column — so
within one post_detail_id the rows stay in table order; the display
order does not influence the result order. -/
def batchGetPostDetailImages (ids : List Nat) (db : MySQLState) :
    Nat → List PostDetailImage :=
  fun did =>
    if ids.contains did then
      db.postDetailImages.filter fun i => !i.deleted && i.postDetailID = did
    else []

/-- Lookup in a post-id → view-count association (the Go map iterated by
BatchUpdatePostViewCounts). -/
def findVal (id : Nat) : List (Nat × Int) → Option Int
  | [] => none
  | kv :: t => if kv.1 = id then some kv.2 else findVal id t

/-- postBatchOperationsRepository.processBatch: one UPDATE of view_count by
CASE id WHEN ... END restricted to WHERE id IN batch-ids, under the GORM
soft-delete scope; rows of absent ids are simply not matched. -/
def processBatch (batch : List (Nat × Int)) (posts : List Post) : List Post :=
  posts.map fun p =>
    if p.deleted then p
    else
      match findVal p.id batch with
      | some c => { p with viewCount := c }
      | none => p

/-- Fuel-indexed batch splitting (the dispatch loop for i := 0; i <
totalUpdates; i += batchSize). -/
def chunksAux (bs : Nat) : Nat → List (Nat × Int) → List (List (Nat × Int))
  | 0, _ => []
  | _ + 1, [] => []
  | fuel + 1, l => l.take bs :: chunksAux bs fuel (l.drop bs)

/-- The batches BatchUpdatePostViewCounts dispatches, in order. -/
def chunks (bs : Nat) (l : List (Nat × Int)) : List (List (Nat × Int)) :=
  chunksAux bs l.length l

/-- postBatchOperationsRepository.BatchUpdatePostViewCounts
(repo/mysql/batch_for_cache.go) on the no-batch-failure path: an empty
map is a no-op; a non-positive configured batch size falls back to 500;
the batches partition the map and each one issues one processBatch
update.  The worker pool writes disjoint row sets, so the concurrent
execution is serializable and modelled as the in-order fold. -/
def batchUpdatePostViewCounts (batchSize : Int) (viewCounts : List (Nat × Int))
    (posts : List Post) : List Post :=
  if viewCounts.length = 0 then posts
  else
    let bs : Nat := if batchSize ≤ 0 then 500 else batchSize.toNat
    (chunks bs viewCounts).foldl (fun rows batch => processBatch batch rows) posts

/-- The update C5 describes, written from the spec's words: every
non-deleted row whose id is in M gets M's count as its view count, ids
in M absent from the store are ignored, and every other row is kept
unchanged. -/
def specViewCountUpdate (viewCounts : List (Nat × Int)) (posts : List Post) :
    List Post :=
  posts.map fun p =>
    if p.deleted = false then
      match findVal p.id viewCounts with
      | some c => { p with viewCount := c }
      | none => p
    else p

/-- models/vo PostImageVO: one image of an aggregated detail view object. -/
structure PostImageVO where
  imageURL : String
  displayOrder : Int
  objectKey : String
deriving DecidableEq, Repr

/-- models/vo PostDetailVO: the aggregated detail view object cached under a
post_detail key (post fields, detail fields and the image list). -/
structure PostDetailVO where
  id : Nat
  title : String
  viewCount : Int
  officialTag : Nat
  content : String
  contactInfo : String
  images : List PostImageVO
deriving DecidableEq, Repr

/-- The Redis structures the hot-snapshot cycle touches: the global ranking
post_rank and the hot ranking hot_post_rank (sorted sets listed in
descending score order, members as stored strings), the summary hash
posts (field id-string → cached entity) and the string keyspace of
detail keys (post_detail:<id> and post_detail:temp:<id>). -/
structure CacheState where
  postRank : List (String × Int)
  hotRank : List (String × Int)
  postsHash : List (String × Post)
  detailStore : List (String × PostDetailVO)
deriving DecidableEq, Repr

/-- constant.PostDetailCacheKeyPrefix. -/
def PostDetailCacheKeyPrefix : String := "post_detail:"

/-- strconv.ParseUint base 10 (the id parses the Go loops perform): a
nonempty all-digit string parses to its value, anything else fails. -/
def parsePostID (s : String) : Option Nat :=
  if !s.data.isEmpty && s.data.all (fun c => c.isDigit) then
    some (s.data.foldl (fun n c => n * 10 + (c.toNat - 48)) 0)
  else none

/-- strings.HasPrefix (the SCAN pattern check on a key). -/
def strHasPref (pre s : String) : Bool := pre.data.isPrefixOf s.data

/-- Dropping a prefix of known length from a key (strings.TrimPrefix once
the prefix is known to be present). -/
def strDropChars (s : String) (n : Nat) : String := String.mk (s.data.drop n)

/-- Modelled from the spec: constant.HotPostsCacheSize is referenced by the
task code but its declaration is not among the sources; the spec fixes
the hot list to the top-N of the ranking with default N = 100. -/
def HotPostsCacheSize : Nat := 100

/-- The final key of a cached detail, post_detail:<id>. -/
def finalDetailKey (id : Nat) : String := PostDetailCacheKeyPrefix ++ toString id

/-- The scratch key of a cached detail, post_detail:temp:<id>. -/
def tempDetailKey (id : Nat) : String :=
  PostDetailCacheKeyPrefix ++ "temp:" ++ toString id

/-- SET on the string keyspace. -/
def storeSet (st : List (String × PostDetailVO)) (k : String) (v : PostDetailVO) :
    List (String × PostDetailVO) :=
  (k, v) :: st.filter fun kv => kv.1 != k

/-- DEL of one key on the string keyspace. -/
def storeDel (st : List (String × PostDetailVO)) (k : String) :
    List (String × PostDetailVO) :=
  st.filter fun kv => kv.1 != k

/-- GET on the string keyspace. -/
def storeGet (st : List (String × PostDetailVO)) (k : String) :
    Option PostDetailVO :=
  (st.find? fun kv => kv.1 == k).map (·.2)

/-- Failure injection for the Redis and MySQL calls the snapshot cycle
issues: the CreateHotList Lua script, the batched Post fetch, the
batched PostDetail fetch, the batched image fetch (non-fatal in the
detail refresh), the pipeline writing the scratch keys, and the RENAME
batch. -/
structure CacheEnv where
  createHotListFails : Bool
  getPostsFails : Bool
  getDetailsFails : Bool
  getImagesFails : Bool
  pipelineFails : Bool
  renameFails : Bool

/-- Error kinds the cache task methods return. -/
inductive CacheErr where
  | luaErr
  | badMember
  | dbErr
  | noData
  | pipeErr
  | renameErr
deriving DecidableEq, Repr

/-- State-and-result of one cache task method; the state is meaningful even
when an error is reported (partial effects can persist). -/
structure CacheResult where
  state : CacheState
  result : Except CacheErr Unit

/-- Parse the members of a ranking slice as the Go loops do (strconv.ParseUint
per member, aborting with an error on the first failure — here none). -/
def parseRankMembers (l : List (String × Int)) : Option (List (Nat × Int)) :=
  l.mapM fun kv => (parsePostID kv.1).map fun i => (i, kv.2)

/-- postTaskCacheImpl.CreateHotList (repo/redis/postTask.go in
src/unnamed/part_019): n ≤ 0 is a logged no-op; otherwise one Lua script
reads the top n of post_rank with scores, deletes hot_post_rank and
rewrites it — atomic, so a script failure leaves the prior hot list
intact. -/
def createHotList (env : CacheEnv) (n : Int) (s : CacheState) : CacheResult :=
  if n ≤ 0 then ⟨s, .ok ()⟩
  else if env.createHotListFails then ⟨s, .error .luaErr⟩
  else ⟨{ s with hotRank := s.postRank.take n.toNat }, .ok ()⟩

/-- postTaskCacheImpl.CacheHotPostsToRedis: read the hot ranking snapshot
(top HotPostsCacheSize with scores); when it is empty, delete the live
summary hash and report success; parse the members, any unparseable
member being a data-corruption error (before any write); fetch the Post
rows, override each view count with the snapshot score; no preparable
data is an error; write the map to a scratch hash and RENAME it onto
posts — every failure after the empty check leaves the live hash
unchanged (the scratch key is cleaned up best-effort). -/
def cacheHotPostsToRedis (env : CacheEnv) (db : MySQLState) (s : CacheState) :
    CacheResult :=
  let postScores := s.hotRank.take HotPostsCacheSize
  if postScores.isEmpty then ⟨{ s with postsHash := [] }, .ok ()⟩
  else
    match parseRankMembers postScores with
    | none => ⟨s, .error .badMember⟩
    | some parsed =>
      if parsed.isEmpty then ⟨{ s with postsHash := [] }, .ok ()⟩
      else if env.getPostsFails then ⟨s, .error .dbErr⟩
      else
        let postsFromDB := getPostsByIDs (parsed.map Prod.fst) db
        let dataToCache := parsed.filterMap fun pr =>
          (postsFromDB.find? fun p => p.id == pr.1).map fun p =>
            (toString pr.1, { p with viewCount := pr.2 })
        if dataToCache.isEmpty then ⟨s, .error .noData⟩
        else if env.pipelineFails then ⟨s, .error .pipeErr⟩
        else if env.renameFails then ⟨s, .error .renameErr⟩
        else ⟨{ s with postsHash := dataToCache }, .ok ()⟩

/-- postTaskCacheImpl.CacheHotPostDetailsToRedis: read the hot ranking
snapshot; when it is empty, scan and delete every post_detail:* key and
report success; parse the members (unparseable member → error before
any write); enumerate the cached final detail keys by scan (a temp key
fails the id parse and is skipped); every hot id is fetched and
re-aggregated, cached ids no longer hot are deleted; the image fetch
failure is non-fatal (aggregation continues with no images); the
aggregated view objects are written under temp keys (pipeline failure →
error, temp keys cleaned, caches unchanged), the stale final keys are
deleted, and the temp keys are RENAMEd onto their final keys (failure →
error with the deletes applied and the temp keys left behind). -/
def cacheHotPostDetailsToRedis (env : CacheEnv) (db : MySQLState)
    (s : CacheState) : CacheResult :=
  let postScores := s.hotRank.take HotPostsCacheSize
  if postScores.isEmpty then
    ⟨{ s with detailStore :=
        s.detailStore.filter fun kv =>
          !(strHasPref PostDetailCacheKeyPrefix kv.1) }, .ok ()⟩
  else
    match parseRankMembers postScores with
    | none => ⟨s, .error .badMember⟩
    | some parsed =>
      if parsed.isEmpty then
        ⟨{ s with detailStore :=
            s.detailStore.filter fun kv =>
              !(strHasPref PostDetailCacheKeyPrefix kv.1) }, .ok ()⟩
      else
        let hotIDs := parsed.map Prod.fst
        let cachedPairs : List (Nat × String) := s.detailStore.filterMap fun kv =>
          if strHasPref PostDetailCacheKeyPrefix kv.1 then
            (parsePostID (strDropChars kv.1 PostDetailCacheKeyPrefix.length)).map
              fun i => (i, kv.1)
          else none
        let finalKeysToDelete :=
          (cachedPairs.filter fun pr => !hotIDs.contains pr.1).map Prod.snd
        if env.getPostsFails then ⟨s, .error .dbErr⟩
        else if env.getDetailsFails then ⟨s, .error .dbErr⟩
        else
          let postsData := getPostsByIDs hotIDs db
          let detailsData := getPostDetailsByPostIDs hotIDs db
          let imagesMap : Nat → List PostDetailImage :=
            if env.getImagesFails then fun _ => []
            else batchGetPostDetailImages (detailsData.map PostDetail.id) db
          let vos : List (Nat × PostDetailVO) := hotIDs.filterMap fun pid =>
            match postsData.find? (fun p => p.id == pid),
                detailsData.find? (fun d => d.postID == pid) with
            | some post, some detail =>
                some (pid,
                  { id := post.id, title := post.title,
                    viewCount := (findVal pid parsed).getD post.viewCount,
                    officialTag := post.officialTag,
                    content := detail.content,
                    contactInfo := detail.contactInfo,
                    images := (imagesMap detail.id).map fun i =>
                      ⟨i.imageURL, i.displayOrder, i.objectKey⟩ })
            | _, _ => none
          if vos.length > 0 && env.pipelineFails then ⟨s, .error .pipeErr⟩
          else
            let s1 := { s with detailStore :=
              (vos.foldl
                (fun (st : List (String × PostDetailVO))
                    (pr : Nat × PostDetailVO) =>
                  storeSet st (tempDetailKey pr.1) pr.2)
                s.detailStore) }
            let s2 := { s1 with detailStore :=
              (s1.detailStore.filter fun kv =>
                !(finalKeysToDelete.contains kv.1)) }
            if vos.length > 0 && env.renameFails then ⟨s2, .error .renameErr⟩
            else
              ⟨{ s2 with detailStore :=
                  (vos.foldl
                    (fun (st : List (String × PostDetailVO))
                        (pr : Nat × PostDetailVO) =>
                      storeSet (storeDel st (tempDetailKey pr.1))
                        (finalDetailKey pr.1) pr.2) s2.detailStore) }, .ok ()⟩

/-- HotPostsCacheTask.syncHotCaches (tasks/hot_posts_cache.go in
src/unnamed/part_005): run the three steps in order; every step's error
is only logged — in particular a CreateHotList failure does not abort
the cycle, steps 2 and 3 still run (the return after the step-1 error
is commented out in the source). -/
def syncHotCaches (env : CacheEnv) (db : MySQLState) (s : CacheState) :
    CacheState :=
  let s1 := (createHotList env (HotPostsCacheSize : Int) s).state
  let s2 := (cacheHotPostsToRedis env db s1).state
  (cacheHotPostDetailsToRedis env db s2).state

/-- Whether an image list is in ascending display order (the property C6
claims of every cached detail). -/
def isSortedByDisplayOrder : List PostImageVO → Bool
  | [] => true
  | [_] => true
  | a :: b :: t => (a.displayOrder ≤ b.displayOrder) && isSortedByDisplayOrder (b :: t)

/-- Environment in which every cache-cycle call succeeds. -/
def envCacheOK : CacheEnv := ⟨false, false, false, false, false, false⟩

/-- Environment in which only the CreateHotList Lua script fails. -/
def envStep1Fail : CacheEnv := ⟨true, false, false, false, false, false⟩

/-- Durable store of the C4 counterexample: a single live post 1. -/
def dbC4 : MySQLState :=
  { posts := [⟨1, "t", 1, 0, 0, false⟩], postDetails := [],
    postDetailImages := [] }

/-- Cache state of the C4 counterexample: post 1 ranks hot with score 5 and
the summary hash is empty. -/
def stC4 : CacheState :=
  { postRank := [("1", 7)], hotRank := [("1", 5)], postsHash := [],
    detailStore := [] }

/-- Cache state of the C10 counterexample: a hot ranking with one
unparseable member, with live summary and detail caches. -/
def stBadMember : CacheState :=
  { postRank := [], hotRank := [("abc", 5)],
    postsHash := [("9", ⟨9, "t", 1, 3, 0, false⟩)],
    detailStore := [("post_detail:9", ⟨9, "t", 3, 0, "c", "q", []⟩)] }

/-- Durable store of the C6 evaluation: post 1, its detail 10 and two image
rows whose storage order (display orders 2 then 1) is not ascending. -/
def dbC6 : MySQLState :=
  { posts := [⟨1, "t", 1, 0, 0, false⟩],
    postDetails := [⟨10, 1, "c", "q", false⟩],
    postDetailImages :=
      [⟨100, 10, "a", 2, "k1", false⟩, ⟨101, 10, "b", 1, "k2", false⟩] }

/-- Cache state of the C6 evaluation: post 1 is hot with snapshot score 5. -/
def stC6 : CacheState :=
  { postRank := [("1", 5)], hotRank := [("1", 5)], postsHash := [],
    detailStore := [] }

/-- cacheImpl.GetPostRank (repo/redis/postCache.go): ZREVRANK of the id in
hot_post_rank — the member's index — with the redis.Nil reply for an
absent member mapped to -1. -/
def getPostRank (s : CacheState) (postID : Nat) : Int :=
  match s.hotRank.findIdx? (fun kv => kv.1 == toString postID) with
  | some i => (i : Int)
  | none => -1

/-- cacheImpl.GetPostsByRange: the client-side guards (negative start,
inverted range with stop ≠ -1), then ZREVRANGE start..stop — the members
at those ranks — with unparseable members skipped.  The service only
passes 0 ≤ start ≤ stop; redis negative-index addressing is not
modelled. -/
def getPostsByRange (s : CacheState) (start stop : Int) : List Nat :=
  if start < 0 then []
  else if start > stop ∧ stop ≠ -1 then []
  else
    (((s.hotRank.drop start.toNat).take (stop + 1 - start).toNat).map
      Prod.fst).filterMap parsePostID

/-- One field of the HMGET on the summary hash posts. -/
def hashGet (s : CacheState) (id : Nat) : Option Post :=
  (s.postsHash.find? fun kv => kv.1 == toString id).map (·.2)

/-- cacheImpl.GetPosts: HMGET of the id fields in request order, skipping
fields absent from the hash (cache misses). -/
def getPosts (s : CacheState) (postIDs : List Nat) : List Post :=
  postIDs.filterMap fun id => hashGet s id

/-- Errors HotPostService.GetHotPostsByCursor returns. -/
inductive CursorErr where
  | invalidLimit
  | cursorExpired
deriving DecidableEq, Repr

/-- The page assembly both branches of GetHotPostsByCursor share: stop =
start+limit-1; the ids come from the hot ranking, an empty slice
short-circuits with a null cursor; the summaries come from one HMGET
with misses skipped; next-cursor is the last ranking id exactly when the
ranking yielded exactly limit ids and at least one summary was found.
limit is positive on every call, so comparing with limit.toNat is the Go
int comparison. -/
def hotPageFrom (s : CacheState) (start : Int) (limit : Int) :
    Except CursorErr (List Post × Option Nat) :=
  let stop := start + limit - 1
  let postIDs := getPostsByRange s start stop
  if postIDs.isEmpty then .ok ([], none)
  else
    let posts := getPosts s postIDs
    let nextCursor : Option Nat :=
      if postIDs.length = limit.toNat ∧ 0 < posts.length then postIDs.getLast?
      else none
    .ok (posts, nextCursor)

/-- HotPostService.GetHotPostsByCursor (service/hot_post.go in
src/unnamed/part_019): a non-positive limit is an error; with no cursor
the page starts at rank 0; otherwise the cursor's rank is looked up and
rank -1 is the distinguished cursor-expired error, the page starting at
rank+1.  The returned items model the vo.PostResponse copies of the
cached entities, field for field. -/
def getHotPostsByCursor (s : CacheState) (lastPostID : Option Nat)
    (limit : Int) : Except CursorErr (List Post × Option Nat) :=
  if limit ≤ 0 then .error .invalidLimit
  else
    match lastPostID with
    | none => hotPageFrom s 0 limit
    | some id =>
        let rank := getPostRank s id
        if rank == -1 then .error .cursorExpired
        else hotPageFrom s (rank + 1) limit

/-- Cache state of the C3 counterexample: two ranked posts, but a summary
hash holding neither. -/
def stC3miss : CacheState :=
  { postRank := [], hotRank := [("1", 10), ("2", 9)], postsHash := [],
    detailStore := [] }

/-- Cache state of the C3 witness (scenario S3 shape): posts 10, 9, 8 ranked
descending with their summaries cached. -/
def stC3ok : CacheState :=
  { postRank := [],
    hotRank := [("10", 500), ("9", 400), ("8", 300)],
    postsHash :=
      [("10", ⟨10, "p10", 1, 500, 0, false⟩),
       ("9", ⟨9, "p9", 1, 400, 0, false⟩),
       ("8", ⟨8, "p8", 1, 300, 0, false⟩)],
    detailStore := [] }

/-- kafkaevents.RejectionDetail: one moderation finding; the score is kept
as the string the handler renders with %.2f, since only the composed
text matters here. -/
structure RejectionDetail where
  label : String
  suggestion : String
  scoreStr : String
  matchedContent : List String

/-- kafkaevents.PostRejectedEvent, the fields the handler reads. -/
structure PostRejectedEvent where
  eventID : String
  postID : Nat
  suggestion : String
  details : List RejectionDetail

/-- enums.Rejected. -/
def statusRejected : Nat := 2

/-- The per-detail fragment RejectedAuditHandler.formatRejectionReason
builds: Label, Suggestion, Score and the joined matched contents. -/
def rejectionDetailString (d : RejectionDetail) : String :=
  let matched :=
    if d.matchedContent.length > 0 then
      ", Matched: '" ++ String.intercalate "','" d.matchedContent ++ "'"
    else ""
  "\x7bLabel: " ++ d.label ++ ", Suggestion: " ++ d.suggestion ++ ", Score: "
    ++ d.scoreStr ++ matched ++ "\x7d"

/-- The 250-character cap of formatRejectionReason (the DB column holds
255). -/
def maxReasonLength : Nat := 250

/-- RejectedAuditHandler.formatRejectionReason (mq/consumer in
src/unnamed/part_001): compose the reason from the suggestion and the
detail fragments; when the text exceeds 250, slice it to 250 and append
an ellipsis.  Go measures and slices bytes; the model measures
characters, which agree on ASCII text. -/
def formatRejectionReason (e : PostRejectedEvent) : String :=
  let base := "Suggestion: " ++ e.suggestion ++ "."
  let reasonStr :=
    if e.details.length > 0 then
      base ++ " Details: ["
        ++ String.intercalate "; " (e.details.map rejectionDetailString) ++ "]"
    else base
  if reasonStr.length > maxReasonLength then
    String.mk (reasonStr.data.take maxReasonLength) ++ "..."
  else reasonStr

/-- The update request RejectedAuditHandler.Handle submits to
PostAdminService.AuditPost. -/
structure AuditPostRequest where
  postID : Nat
  status : Nat
  reason : String
deriving DecidableEq, Repr

/-- RejectedAuditHandler.Handle on a parsed event: status rejected with the
composed audit reason. -/
def rejectedHandle (e : PostRejectedEvent) : AuditPostRequest :=
  { postID := e.postID, status := statusRejected,
    reason := formatRejectionReason e }

/-- A rejected event whose suggestion alone is 250 characters. -/
def evLongSuggestion : PostRejectedEvent :=
  { eventID := "e", postID := 7,
    suggestion := String.mk (List.replicate 250 'a'), details := [] }

/-- Durable store of the C9 counterexample: post 1 with detail 10 and one
image row 100, nothing deleted. -/
def db9 : MySQLState :=
  { posts := [⟨1, "t", 1, 0, 0, false⟩],
    postDetails := [⟨10, 1, "c", "q", false⟩],
    postDetailImages := [⟨100, 10, "u", 0, "k", false⟩] }

/-- The counter map of scenario S5: counters 1→7, 2→12, 3→0. -/
def viewMapS5 : List (Nat × Int) := [(1, 7), (2, 12), (3, 0)]

/-- Durable rows for scenario S5: posts 1..3 plus an untouched post 4. -/
def rowsS5 : List Post :=
  [⟨1, "a", 1, 0, 0, false⟩, ⟨2, "b", 1, 0, 0, false⟩,
   ⟨3, "c", 1, 5, 0, false⟩, ⟨4, "d", 1, 9, 0, false⟩]

section Theorems

/-- Case analysis of one IncrementViewCount call at its (post, user) keys:
either the Lua step ran (counter stepped, user newly recorded) or nothing
at those keys changed except possibly recording the user. -/
theorem incrementViewCount_cases (env : IncrEnv) (s : KVState) (p : Nat) (u : String) :
    (let t := incrementViewCount env s p u
     (t.counted = true ∧ t.state.counters p = s.counters p + 1 ∧
       t.state.postRank p = some (Int.ofNat (t.state.counters p)) ∧
       filterHasUser s p u = false ∧ filterHasUser t.state p u = true) ∨
     (t.counted = false ∧ t.state.counters p = s.counters p ∧
       t.state.postRank p = s.postRank p ∧
       (filterHasUser t.state p u = filterHasUser s p u ∨
         filterHasUser t.state p u = true))) := by
  obtain ⟨r, ex, ad, xp, lu⟩ := env
  cases r <;> cases ex <;> cases ad <;> cases lu <;>
    cases hf : s.filters p <;>
    simp [incrementViewCount, hf, updFn, filterHasUser, bfExists, freshFilter, bfAdd] <;>
    split <;>
    simp_all [filterHasUser, hf, updFn, bfExists, freshFilter, bfAdd]

/-- Filter membership never decreases across one call and a counted call
steps the counter by exactly one while recording the user. -/
theorem incrN_counter_invariant (envs : List IncrEnv) (s0 : KVState) (p : Nat)
    (u : String) :
    ∀ s : KVState, s.counters p ≤ s0.counters p + 1 →
      (filterHasUser s p u = false → s.counters p = s0.counters p) →
      (incrementViewCountN envs s p u).counters p ≤ s0.counters p + 1 := by
  induction envs with
  | nil => intro s hb _; simpa [incrementViewCountN] using hb
  | cons e rest ih =>
    intro s hb hf
    have hstep :
        incrementViewCountN (e :: rest) s p u =
          incrementViewCountN rest (incrementViewCount e s p u).state p u := rfl
    rw [hstep]
    rcases incrementViewCount_cases e s p u with
      ⟨_, h1, _, hfu, hft⟩ | ⟨_, h1, _, hor⟩
    · apply ih
      · rw [h1, hf hfu]
      · intro hnew; rw [hft] at hnew; cases hnew
    · apply ih
      · rw [h1]; exact hb
      · intro hnew
        rcases hor with heq | htrue
        · rw [h1]; exact hf (heq ▸ hnew)
        · rw [htrue] at hnew; cases hnew

/-- C1: whenever IncrementViewCount performs a counted view, the counter
increment and the write of the new counter as the post's score in
post_rank take effect together (the Lua script), and when it does not,
neither the counter nor the ranking score changes; in the counted case
the ranking score equals the counter afterwards. -/
theorem C1_increment_counter_rank_atomic (env : IncrEnv) (s : KVState) (p : Nat)
    (u : String) :
    ((incrementViewCount env s p u).counted = true →
      (incrementViewCount env s p u).state.counters p = s.counters p + 1 ∧
      (incrementViewCount env s p u).state.postRank p =
        some (Int.ofNat ((incrementViewCount env s p u).state.counters p))) ∧
    ((incrementViewCount env s p u).counted = false →
      (incrementViewCount env s p u).state.counters p = s.counters p ∧
      (incrementViewCount env s p u).state.postRank p = s.postRank p) := by
  rcases incrementViewCount_cases env s p u with
    ⟨hc, h1, h2, _, _⟩ | ⟨hc, h1, h2, _⟩
  · refine ⟨fun _ => ⟨h1, h2⟩, fun hfalse => ?_⟩
    rw [hc] at hfalse; cases hfalse
  · refine ⟨fun htrue => ?_, fun _ => ⟨h1, h2⟩⟩
    rw [hc] at htrue; cases htrue

/-- C1 witness: on the empty Redis state a successful call counts, steps the
counter of post 1 from 0 to 1 and writes 1 as its ranking score. -/
theorem C1_increment_counter_rank_atomic_witness :
    (incrementViewCount envOK kv0 1 "u").counted = true ∧
    (incrementViewCount envOK kv0 1 "u").state.counters 1 = kv0.counters 1 + 1 ∧
    (incrementViewCount envOK kv0 1 "u").state.postRank 1 =
      some (Int.ofNat ((incrementViewCount envOK kv0 1 "u").state.counters 1)) := by
  refine ⟨rfl, ?_, ?_⟩
  · exact ((C1_increment_counter_rank_atomic envOK kv0 1 "u").1 rfl).1
  · exact ((C1_increment_counter_rank_atomic envOK kv0 1 "u").1 rfl).2

/-- C2: a user the dedup filter reports as probably present makes
IncrementViewCount return ok with the whole Redis state unchanged
(counter, ranking and filter untouched), and consequently, within one
filter TTL, repeated increments by one (post, user) pair step the
counter at most once, whatever failures the individual calls hit. -/
theorem C2_dedup_noop_and_at_most_once :
    (∀ (env : IncrEnv) (s : KVState) (p : Nat) (u : String) (f : BloomFilter),
        env.reserveFails = false → env.existsFails = false →
        s.filters p = some f → bfExists f u = true →
        incrementViewCount env s p u = ⟨.ok (), s, false, false⟩) ∧
    (∀ (envs : List IncrEnv) (s : KVState) (p : Nat) (u : String),
        (incrementViewCountN envs s p u).counters p ≤ s.counters p + 1) := by
  constructor
  · intro env s p u f hr he hf hq
    simp [incrementViewCount, hr, he, hf, hq]
  · intro envs s p u
    exact incrN_counter_invariant envs s p u s (Nat.le_succ _) (fun _ => rfl)

/-- C2 witness: on a state whose filter for post 1 records user u, a call
returns ok and leaves the state untouched, and three repeated calls on
the empty state step the counter of post 1 at most once. -/
theorem C2_dedup_noop_and_at_most_once_witness :
    incrementViewCount envOK kvSeen 1 "u" = ⟨.ok (), kvSeen, false, false⟩ ∧
    (incrementViewCountN [envOK, envOK, envOK] kv0 1 "u").counters 1 ≤
      kv0.counters 1 + 1 :=
  ⟨C2_dedup_noop_and_at_most_once.1 envOK kvSeen 1 "u" ⟨["u"], fun _ => false⟩
      rfl rfl rfl rfl,
   C2_dedup_noop_and_at_most_once.2 [envOK, envOK, envOK] kv0 1 "u"⟩

/-- C8 counterexample: with BF.ADD failing (step 3) on the empty state, the
call reports the failure to its caller and does not execute the atomic
counter-and-ranking step, contrary to the claim that step-3 failures are
only logged and non-fatal. -/
theorem C8_counterexample_add_failure_is_fatal :
    (incrementViewCount envAddFail kv0 1 "u").result =
      Except.error IncrErr.addErr ∧
    (incrementViewCount envAddFail kv0 1 "u").counted = false ∧
    (incrementViewCount envAddFail kv0 1 "u").state.counters 1 = kv0.counters 1 ∧
    (incrementViewCount envAddFail kv0 1 "u").state.postRank 1 = kv0.postRank 1 :=
  ⟨rfl, rfl, rfl, rfl⟩

/-- C8 amended: of the step-3 operations only the TTL refresh (EXPIRE)
failure is non-fatal — it is logged and the atomic counter-and-ranking
step still runs with ok returned — while a BF.ADD failure is fatal: it
is reported to the caller and the counter-and-ranking step is not
executed. -/
theorem C8_amended_only_expire_failure_nonfatal :
    (∀ (env : IncrEnv) (s : KVState) (p : Nat) (u : String),
        env.reserveFails = false → env.existsFails = false →
        env.addFails = false → env.luaFails = false →
        bfQueryState s p u = false →
        (incrementViewCount env s p u).result = .ok () ∧
        (incrementViewCount env s p u).counted = true ∧
        (incrementViewCount env s p u).warnLogged = env.expireFails) ∧
    (∀ (env : IncrEnv) (s : KVState) (p : Nat) (u : String),
        env.reserveFails = false → env.existsFails = false →
        env.addFails = true →
        bfQueryState s p u = false →
        (incrementViewCount env s p u).result = .error .addErr ∧
        (incrementViewCount env s p u).counted = false ∧
        (incrementViewCount env s p u).state.counters p = s.counters p ∧
        (incrementViewCount env s p u).state.postRank p = s.postRank p) := by
  constructor
  · intro env s p u hr he ha hl hq
    cases hf : s.filters p <;>
      simp_all [incrementViewCount, bfQueryState, hf, updFn]
  · intro env s p u hr he ha hq
    cases hf : s.filters p <;>
      simp_all [incrementViewCount, bfQueryState, hf, updFn]

/-- C8 amended witness: with only EXPIRE failing the call still counts and
returns ok while logging the warning; with BF.ADD failing it reports the
error and post 1's counter and score are unchanged. -/
theorem C8_amended_only_expire_failure_nonfatal_witness :
    ((incrementViewCount envExpireFail kv0 1 "u").result = .ok () ∧
      (incrementViewCount envExpireFail kv0 1 "u").counted = true ∧
      (incrementViewCount envExpireFail kv0 1 "u").warnLogged =
        envExpireFail.expireFails) ∧
    ((incrementViewCount envAddFail kv0 1 "u").result = .error .addErr ∧
      (incrementViewCount envAddFail kv0 1 "u").counted = false ∧
      (incrementViewCount envAddFail kv0 1 "u").state.counters 1 = kv0.counters 1 ∧
      (incrementViewCount envAddFail kv0 1 "u").state.postRank 1 = kv0.postRank 1) :=
  ⟨C8_amended_only_expire_failure_nonfatal.1 envExpireFail kv0 1 "u"
      rfl rfl rfl rfl rfl,
   C8_amended_only_expire_failure_nonfatal.2 envAddFail kv0 1 "u"
      rfl rfl rfl rfl⟩

theorem findVal_eq_none_of_not_mem (id : Nat) (l : List (Nat × Int))
    (h : id ∉ l.map Prod.fst) : findVal id l = none := by
  induction l with
  | nil => rfl
  | cons kv t ih =>
    simp only [List.map_cons, List.mem_cons, not_or] at h
    have hk : ¬kv.1 = id := fun he => h.1 he.symm
    simpa [findVal, hk] using ih h.2

theorem mem_of_findVal_eq_some (id : Nat) (l : List (Nat × Int)) (c : Int)
    (h : findVal id l = some c) : id ∈ l.map Prod.fst := by
  induction l with
  | nil => simp [findVal] at h
  | cons kv t ih =>
    by_cases hk : kv.1 = id
    · simp [hk]
    · simp only [findVal, hk, if_false] at h
      simp [ih h]

theorem findVal_append_left (id : Nat) (l1 l2 : List (Nat × Int)) (c : Int)
    (h : findVal id l1 = some c) : findVal id (l1 ++ l2) = some c := by
  induction l1 with
  | nil => simp [findVal] at h
  | cons kv t ih =>
    by_cases hk : kv.1 = id
    · simpa [findVal, hk] using h
    · simp only [findVal, hk, if_false, List.cons_append] at h ⊢
      exact ih h

theorem findVal_append_right (id : Nat) (l1 l2 : List (Nat × Int))
    (h : findVal id l1 = none) : findVal id (l1 ++ l2) = findVal id l2 := by
  induction l1 with
  | nil => simp
  | cons kv t ih =>
    by_cases hk : kv.1 = id
    · simp [findVal, hk] at h
    · simp only [findVal, hk, if_false, List.cons_append] at h ⊢
      exact ih h

theorem processBatch_nil (rows : List Post) : processBatch [] rows = rows := by
  simp [processBatch, findVal]

theorem processBatch_append (b rest : List (Nat × Int)) (rows : List Post)
    (hdisj : ∀ k, k ∈ b.map Prod.fst → k ∉ rest.map Prod.fst) :
    processBatch rest (processBatch b rows) = processBatch (b ++ rest) rows := by
  simp only [processBatch, List.map_map]
  refine List.map_congr_left fun p _ => ?_
  simp only [Function.comp_apply]
  by_cases hp : p.deleted
  · simp [hp]
  · simp only [hp, if_neg, Bool.false_eq_true, not_false_iff, if_false]
    cases hv : findVal p.id b with
    | none =>
      rw [findVal_append_right p.id b rest hv]
      cases findVal p.id rest <;> simp [hp]
    | some c =>
      rw [findVal_append_left p.id b rest c hv]
      have hnotin : findVal p.id rest = none :=
        findVal_eq_none_of_not_mem p.id rest
          (hdisj p.id (mem_of_findVal_eq_some p.id b c hv))
      simp [hp, hnotin]

theorem foldl_processBatch (bs : List (List (Nat × Int))) (rows : List Post)
    (hnd : (bs.flatten.map Prod.fst).Nodup) :
    bs.foldl (fun r b => processBatch b r) rows = processBatch bs.flatten rows := by
  induction bs generalizing rows with
  | nil => simp [processBatch_nil]
  | cons b t ih =>
    simp only [List.flatten_cons, List.map_append, List.nodup_append] at hnd
    obtain ⟨_, hndt, hdisj⟩ := hnd
    simp only [List.foldl_cons, List.flatten_cons]
    rw [ih (processBatch b rows) hndt]
    exact processBatch_append b t.flatten rows hdisj

theorem chunksAux_flatten (bs : Nat) (hbs : 0 < bs) :
    ∀ (fuel : Nat) (l : List (Nat × Int)), l.length ≤ fuel →
      (chunksAux bs fuel l).flatten = l := by
  intro fuel
  induction fuel with
  | zero =>
    intro l hl
    rw [Nat.le_zero, List.length_eq_zero] at hl
    subst hl
    simp [chunksAux]
  | succ fuel ih =>
    intro l hl
    cases l with
    | nil => simp [chunksAux]
    | cons x xs =>
      simp only [chunksAux, List.flatten_cons]
      rw [ih ((x :: xs).drop bs) (by simp at hl ⊢; omega)]
      exact List.take_append_drop bs (x :: xs)

theorem processBatch_eq_spec (m : List (Nat × Int)) (rows : List Post) :
    processBatch m rows = specViewCountUpdate m rows := by
  refine List.map_congr_left fun p _ => ?_
  by_cases hp : p.deleted <;> simp [hp]

/-- C5: after the writeback job completes with no batch failure, every
non-deleted row whose id is in the count map M carries M's count as its
view count, ids of M absent from the store are ignored, and every row
whose id is not in M is unchanged — i.e. the chunked, concurrent update
equals the one-pass update described by the spec. -/
theorem C5_writeback_applies_all_counts (batchSize : Int)
    (m : List (Nat × Int)) (rows : List Post)
    (hnd : (m.map Prod.fst).Nodup) :
    batchUpdatePostViewCounts batchSize m rows = specViewCountUpdate m rows := by
  unfold batchUpdatePostViewCounts
  by_cases hz : m.length = 0
  · rw [List.length_eq_zero] at hz
    subst hz
    simp [specViewCountUpdate, findVal]
  · simp only [hz, if_false]
    have hbs : 0 < (if batchSize ≤ 0 then 500 else batchSize.toNat) := by
      split <;> omega
    have hfl : (chunks (if batchSize ≤ 0 then 500 else batchSize.toNat) m).flatten
        = m :=
      chunksAux_flatten _ hbs m.length m le_rfl
    rw [foldl_processBatch _ rows (by rw [hfl]; exact hnd), hfl,
      processBatch_eq_spec]

/-- C5 witness: scenario S5 — counters 1→7, 2→12, 3→0, batch size 2 —
applied to rows 1..4; the keys are distinct, so the theorem applies and
post 4 keeps its count. -/
theorem C5_writeback_applies_all_counts_witness :
    (viewMapS5.map Prod.fst).Nodup ∧
    batchUpdatePostViewCounts 2 viewMapS5 rowsS5 =
      specViewCountUpdate viewMapS5 rowsS5 :=
  ⟨by decide, C5_writeback_applies_all_counts 2 viewMapS5 rowsS5 (by decide)⟩

/-- C9 counterexample: on a store with post 1, detail 10 and image row 100,
the owner delete soft-deletes the image while the admin delete leaves it
live, so the two do not perform the same transactional soft-deletes. -/
theorem C9_counterexample_admin_keeps_images :
    (deletePost 1 db9).1.postDetailImages.map PostDetailImage.deleted = [true] ∧
    (deletePostByAdmin 1 db9).1.postDetailImages.map PostDetailImage.deleted =
      [false] :=
  ⟨by decide, by decide⟩

/-- C9 amended: delete-by-admin soft-deletes the post and then the detail in
one transaction and emits a deleted event on success, agreeing with
delete-by-owner on the post and detail tables, but unlike
delete-by-owner it never touches the image rows. -/
theorem C9_amended_admin_delete_skips_images (postID : Nat) (db : MySQLState) :
    (deletePostByAdmin postID db).1.postDetailImages = db.postDetailImages ∧
    (deletePostByAdmin postID db).1.posts = (deletePost postID db).1.posts ∧
    (deletePostByAdmin postID db).1.postDetails =
      (deletePost postID db).1.postDetails ∧
    (deletePostByAdmin postID db).2 = true ∧ (deletePost postID db).2 = true := by
  refine ⟨rfl, ?_, ?_, rfl, ?_⟩
  · cases hd : getPostDetailByPostID db postID <;>
      simp [deletePost, deletePostByAdmin, hd, softDeletePost,
        softDeletePostDetailByPostID, softDeleteImagesByPostDetailID]
  · cases hd : getPostDetailByPostID db postID with
    | none =>
      simp only [deletePost, deletePostByAdmin, hd, softDeletePost,
        softDeletePostDetailByPostID]
      have hall := List.find?_eq_none.mp hd
      refine (List.map_congr_left fun d hdmem => ?_).trans (List.map_id _)
      have hcond := hall d hdmem
      simp only [Bool.and_eq_true, decide_eq_true_eq, Bool.not_eq_true'] at hcond
      by_cases h1 : d.postID = postID
      · by_cases h2 : d.deleted
        · simp [h1, h2]
        · exact absurd ⟨by simpa using h2, h1⟩ hcond
      · simp [h1]
    | some d =>
      simp [deletePost, deletePostByAdmin, hd, softDeletePost,
        softDeletePostDetailByPostID, softDeleteImagesByPostDetailID]
  · cases hd : getPostDetailByPostID db postID <;> simp [deletePost, hd]

theorem cacheHotPostsToRedis_hotRank (env : CacheEnv) (db : MySQLState)
    (s : CacheState) :
    (cacheHotPostsToRedis env db s).state.hotRank = s.hotRank := by
  unfold cacheHotPostsToRedis
  dsimp only
  (repeat' split) <;> rfl

theorem cacheHotPostDetailsToRedis_hotRank (env : CacheEnv) (db : MySQLState)
    (s : CacheState) :
    (cacheHotPostDetailsToRedis env db s).state.hotRank = s.hotRank := by
  unfold cacheHotPostDetailsToRedis
  dsimp only
  (repeat' split) <;> rfl

/-- C4 counterexample: with the step-1 Lua script failing on a concrete
state, the cycle still rebuilds the summary hash (step 2 ran), contrary
to the claim that the cycle's subsequent steps are not attempted; the
hot ranking itself is left intact. -/
theorem C4_counterexample_steps_still_attempted :
    (syncHotCaches envStep1Fail dbC4 stC4).postsHash ≠ stC4.postsHash ∧
    (syncHotCaches envStep1Fail dbC4 stC4).hotRank = stC4.hotRank :=
  ⟨by decide, by decide⟩

/-- C4 amended: when step 1 (the atomic snapshot copy) fails, the hot
ranking's prior contents are left intact, but the cycle's subsequent
steps are still attempted — the cycle continues exactly as the
summary-hash refresh followed by the detail refresh on the unchanged
state (the step-1 error is only logged). -/
theorem C4_amended_step1_failure_keeps_rank_but_continues (env : CacheEnv)
    (db : MySQLState) (s : CacheState) (h : env.createHotListFails = true) :
    (syncHotCaches env db s).hotRank = s.hotRank ∧
    syncHotCaches env db s =
      (cacheHotPostDetailsToRedis env db
        (cacheHotPostsToRedis env db s).state).state := by
  have hstep1 : (createHotList env (HotPostsCacheSize : Int) s).state = s := by
    simp [createHotList, h, HotPostsCacheSize]
  constructor
  · show (cacheHotPostDetailsToRedis env db _).state.hotRank = s.hotRank
    rw [cacheHotPostDetailsToRedis_hotRank, cacheHotPostsToRedis_hotRank, hstep1]
  · show (cacheHotPostDetailsToRedis env db
        (cacheHotPostsToRedis env db
          (createHotList env (HotPostsCacheSize : Int) s).state).state).state = _
    rw [hstep1]

/-- C4 amended witness: on the concrete failing cycle the hot ranking is
unchanged and the run equals steps 2 and 3 on the prior state. -/
theorem C4_amended_step1_failure_keeps_rank_but_continues_witness :
    (syncHotCaches envStep1Fail dbC4 stC4).hotRank = stC4.hotRank ∧
    syncHotCaches envStep1Fail dbC4 stC4 =
      (cacheHotPostDetailsToRedis envStep1Fail dbC4
        (cacheHotPostsToRedis envStep1Fail dbC4 stC4).state).state :=
  C4_amended_step1_failure_keeps_rank_but_continues envStep1Fail dbC4 stC4 rfl

/-- C10 counterexample: on a hot ranking holding one unparseable member, the
summary refresh and the detail refresh both fail with a data-corruption
error and retain the prior caches, contrary to the claim that such a
cycle deletes the caches and reports success. -/
theorem C10_counterexample_unparseable_member_errors :
    (cacheHotPostsToRedis envCacheOK dbC4 stBadMember).result =
      .error .badMember ∧
    (cacheHotPostsToRedis envCacheOK dbC4 stBadMember).state = stBadMember ∧
    (cacheHotPostDetailsToRedis envCacheOK dbC4 stBadMember).result =
      .error .badMember ∧
    (cacheHotPostDetailsToRedis envCacheOK dbC4 stBadMember).state =
      stBadMember :=
  ⟨rfl, by decide, rfl, by decide⟩

/-- C10 amended: when the hot ranking snapshot is empty, the cycle deletes
the live summary hash and every cached post_detail key and reports
success; but a nonempty snapshot holding an unparseable member makes
both refresh steps fail with an error and retain the prior caches. -/
theorem C10_amended_empty_clears_unparseable_errors :
    (∀ (env : CacheEnv) (db : MySQLState) (s : CacheState), s.hotRank = [] →
        cacheHotPostsToRedis env db s = ⟨{ s with postsHash := [] }, .ok ()⟩ ∧
        cacheHotPostDetailsToRedis env db s =
          ⟨{ s with detailStore :=
              (s.detailStore.filter fun kv =>
                !(strHasPref PostDetailCacheKeyPrefix kv.1)) }, .ok ()⟩) ∧
    (∀ (env : CacheEnv) (db : MySQLState) (s : CacheState),
        s.hotRank.take HotPostsCacheSize ≠ [] →
        parseRankMembers (s.hotRank.take HotPostsCacheSize) = none →
        cacheHotPostsToRedis env db s = ⟨s, .error .badMember⟩ ∧
        cacheHotPostDetailsToRedis env db s = ⟨s, .error .badMember⟩) := by
  constructor
  · intro env db s he
    rw [show s = { s with hotRank := ([] : List (String × Int)) } from by
      cases s; simp_all]
    constructor <;> rfl
  · intro env db s hne hp
    have hempty : (s.hotRank.take HotPostsCacheSize).isEmpty = false := by
      cases hq : s.hotRank.take HotPostsCacheSize with
      | nil => exact absurd hq hne
      | cons a t => simp
    constructor
    · unfold cacheHotPostsToRedis
      simp only [hempty, Bool.false_eq_true, if_false, hp]
    · unfold cacheHotPostDetailsToRedis
      simp only [hempty, Bool.false_eq_true, if_false, hp]

/-- C10 amended witness: an empty hot ranking clears both caches with
success, while the unparseable member errors with caches retained. -/
theorem C10_amended_empty_clears_unparseable_errors_witness :
    (cacheHotPostsToRedis envCacheOK dbC4
        { postRank := [], hotRank := [], postsHash := [], detailStore := [] } =
      ⟨{ postRank := [], hotRank := [], postsHash := [], detailStore := [] },
        .ok ()⟩) ∧
    cacheHotPostsToRedis envCacheOK dbC4 stBadMember =
      ⟨stBadMember, .error .badMember⟩ := by
  constructor
  · exact (C10_amended_empty_clears_unparseable_errors.1 envCacheOK dbC4
      { postRank := [], hotRank := [], postsHash := [], detailStore := [] }
      rfl).1
  · exact (C10_amended_empty_clears_unparseable_errors.2 envCacheOK dbC4
      stBadMember (by decide) (by decide)).1

/-- C6: the detail refresh caches post 1 with its image array in table
order [display order 2, display order 1] — not ascending display order —
because the batched image query orders by the string literal
double-quoted order instead of the display_order column, contradicting
the claim, the spec and the query's own comment. -/
theorem C6_cached_detail_images_not_sorted :
    (cacheHotPostDetailsToRedis envCacheOK dbC6 stC6).result = .ok () ∧
    (storeGet (cacheHotPostDetailsToRedis envCacheOK dbC6 stC6).state.detailStore
        "post_detail:1").map (fun vo => vo.images.map PostImageVO.displayOrder) =
      some [2, 1] ∧
    (storeGet (cacheHotPostDetailsToRedis envCacheOK dbC6 stC6).state.detailStore
        "post_detail:1").map (fun vo => isSortedByDisplayOrder vo.images) =
      some false :=
  ⟨rfl, by decide, by decide⟩

set_option maxRecDepth 4000 in
/-- C7 counterexample: an event whose suggestion alone is 250 characters
makes the composed audit reason 253 characters long (250 kept plus the
appended ellipsis), exceeding the claimed 250-character bound. -/
theorem C7_counterexample_reason_reaches_253 :
    (formatRejectionReason evLongSuggestion).length = 253 ∧
    ¬(formatRejectionReason evLongSuggestion).length ≤ 250 :=
  ⟨by decide, by decide⟩

theorem truncatedReasonLength_le (r : String) :
    (if r.length > maxReasonLength then
        String.mk (r.data.take maxReasonLength) ++ "..."
      else r).length ≤ 253 := by
  split
  · rw [String.length_append]
    have h1 : (String.mk (r.data.take maxReasonLength)).length ≤ 250 := by
      show (r.data.take maxReasonLength).length ≤ 250
      simp [maxReasonLength]
    have h3 : ("..." : String).length = 3 := rfl
    omega
  · next h =>
    simp only [gt_iff_lt, not_lt, maxReasonLength] at h
    omega

/-- C7 amended: for every rejected moderation event the handler submits
status rejected with the audit reason composed from the event's
suggestion and details, and that reason is at most 253 characters long —
the text is cut to 250 characters and a 3-character ellipsis is appended
when it exceeded the cap. -/
theorem C7_amended_reason_at_most_253 (e : PostRejectedEvent) :
    (rejectedHandle e).status = statusRejected ∧
    (rejectedHandle e).reason = formatRejectionReason e ∧
    (formatRejectionReason e).length ≤ 253 := by
  refine ⟨rfl, rfl, ?_⟩
  unfold formatRejectionReason
  exact truncatedReasonLength_le _

theorem filterMap_parse_map_toString (l : List Nat)
    (h : ∀ i ∈ l, parsePostID (toString i) = some i) :
    ((l.map fun i => toString i).filterMap parsePostID) = l := by
  induction l with
  | nil => rfl
  | cons a t ih =>
    simp only [List.map_cons, List.filterMap_cons,
      h a (List.mem_cons_self a t)]
    rw [ih fun i hi => h i (List.mem_cons_of_mem a hi)]

theorem getPosts_map_id (s : CacheState) (l : List Nat)
    (h : ∀ i ∈ l, (hashGet s i).map Post.id = some i) :
    (getPosts s l).map Post.id = l ∧ (getPosts s l).length = l.length := by
  induction l with
  | nil => exact ⟨rfl, rfl⟩
  | cons a t ih =>
    obtain ⟨p, hp, hpid⟩ := Option.map_eq_some.mp (h a (List.mem_cons_self a t))
    obtain ⟨ih1, ih2⟩ := ih fun i hi => h i (List.mem_cons_of_mem a hi)
    refine ⟨?_, ?_⟩
    · simp only [getPosts, List.filterMap_cons, hp]
      simp only [getPosts] at ih1
      simp [ih1, hpid]
    · simp only [getPosts, List.filterMap_cons, hp]
      simp only [getPosts] at ih2
      simp [ih2]

theorem findIdx?_congr_mem {α : Type} (l : List α) (p q : α → Bool)
    (h : ∀ x ∈ l, p x = q x) : l.findIdx? p = l.findIdx? q := by
  induction l with
  | nil => rfl
  | cons a t ih =>
    rw [List.findIdx?_cons, List.findIdx?_cons, List.findIdx?_succ,
      List.findIdx?_succ, h a (List.mem_cons_self a t),
      ih fun x hx => h x (List.mem_cons_of_mem a hx)]

theorem nodup_findIdx?_beq (l : List Nat) (k : Nat) (c : Nat)
    (hnd : l.Nodup) (hk : l[k]? = some c) :
    l.findIdx? (fun i => i == c) = some k := by
  induction l generalizing k with
  | nil => simp at hk
  | cons a t ih =>
    cases k with
    | zero =>
      simp only [List.getElem?_cons_zero, Option.some_inj] at hk
      simp [List.findIdx?_cons, hk]
    | succ k =>
      simp only [List.getElem?_cons_succ] at hk
      have hmem : c ∈ t := by
        have := List.getElem?_eq_some.mp hk
        obtain ⟨hlt, hget⟩ := this
        exact hget ▸ List.getElem_mem hlt
      have hane : ¬(a == c) = true := by
        simp only [beq_iff_eq]
        intro hac
        exact (List.nodup_cons.mp hnd).1 (hac ▸ hmem)
      rw [List.findIdx?_cons, List.findIdx?_succ]
      simp only [Bool.not_eq_true] at hane
      rw [hane]
      simp only [Bool.false_eq_true, if_false]
      rw [ih k (List.nodup_cons.mp hnd).2 hk]
      rfl

theorem getPostsByRange_canonical (s : CacheState) (ids : List Nat)
    (hmap : s.hotRank.map Prod.fst = ids.map fun i => toString i)
    (hcanon : ∀ i ∈ ids, parsePostID (toString i) = some i)
    (k n : Nat) (hn : 0 < n) :
    getPostsByRange s (k : Int) ((k : Int) + (n : Int) - 1) =
      (ids.drop k).take n := by
  unfold getPostsByRange
  rw [if_neg (by omega), if_neg (by omega)]
  have h1 : ((k : Int) + (n : Int) - 1 + 1 - (k : Int)).toNat = n := by omega
  have h2 : ((k : Int)).toNat = k := by omega
  rw [h1, h2]
  have h3 : ((s.hotRank.drop k).take n).map Prod.fst =
      ((ids.drop k).take n).map fun i => toString i := by
    rw [List.map_take, List.map_drop, hmap, ← List.map_drop, ← List.map_take]
  rw [h3]
  exact filterMap_parse_map_toString _ fun i hi =>
    hcanon i (List.mem_of_mem_drop (List.mem_of_mem_take hi))

theorem getPostRank_canonical (s : CacheState) (ids : List Nat)
    (hmap : s.hotRank.map Prod.fst = ids.map fun i => toString i)
    (hcanon : ∀ i ∈ ids, parsePostID (toString i) = some i)
    (hnd : ids.Nodup) (k c : Nat) (hk : ids[k]? = some c) :
    getPostRank s c = (k : Int) := by
  have hcmem : c ∈ ids := by
    obtain ⟨hlt, hget⟩ := List.getElem?_eq_some.mp hk
    exact hget ▸ List.getElem_mem hlt
  have e1 : s.hotRank.findIdx? (fun kv => kv.1 == toString c) =
      (s.hotRank.map Prod.fst).findIdx? (fun m => m == toString c) := by
    rw [List.findIdx?_map]
    rfl
  have e2 : (ids.map fun i => toString i).findIdx? (fun m => m == toString c) =
      ids.findIdx? (fun i => toString i == toString c) := by
    rw [List.findIdx?_map]
    rfl
  have e3 : ids.findIdx? (fun i => toString i == toString c) =
      ids.findIdx? (fun i => i == c) := by
    apply findIdx?_congr_mem
    intro x hx
    by_cases hxc : x = c
    · simp [hxc]
    · have : ¬(toString x = toString c) := by
        intro he
        have := (hcanon x hx).symm.trans (he ▸ hcanon c hcmem)
        simp at this
        exact hxc this
      simp [this, hxc]
  unfold getPostRank
  rw [e1, hmap, e2, e3, nodup_findIdx?_beq ids k c hnd hk]

theorem hotPageFrom_canonical (s : CacheState) (ids : List Nat)
    (hmap : s.hotRank.map Prod.fst = ids.map fun i => toString i)
    (hcanon : ∀ i ∈ ids, parsePostID (toString i) = some i)
    (hhash : ∀ i ∈ ids, (hashGet s i).map Post.id = some i)
    (k n : Nat) (hn : 0 < n) :
    ∃ posts : List Post,
      hotPageFrom s (k : Int) (n : Int) =
        .ok (posts,
          if ((ids.drop k).take n).length = n ∧ 0 < ((ids.drop k).take n).length
          then ((ids.drop k).take n).getLast? else none) ∧
      posts.map Post.id = (ids.drop k).take n := by
  have hrange := getPostsByRange_canonical s ids hmap hcanon k n hn
  have hposts := getPosts_map_id s ((ids.drop k).take n) fun i hi =>
    hhash i (List.mem_of_mem_drop (List.mem_of_mem_take hi))
  refine ⟨getPosts s ((ids.drop k).take n), ?_, hposts.1⟩
  unfold hotPageFrom
  dsimp only
  rw [hrange]
  by_cases hemp : ((ids.drop k).take n).isEmpty
  · rw [if_pos hemp]
    have : (ids.drop k).take n = [] := List.isEmpty_iff.mp hemp
    rw [this]
    simp [getPosts]
  · rw [if_neg hemp]
    have hlen : (getPosts s ((ids.drop k).take n)).length =
        ((ids.drop k).take n).length := hposts.2
    have hnn : ((n : Int)).toNat = n := by omega
    rw [hnn, hlen]

/-- C3 amended, part computation: the first page under a canonical snapshot. -/
theorem firstPage_canonical (s : CacheState) (ids : List Nat) (L : Int)
    (hmap : s.hotRank.map Prod.fst = ids.map fun i => toString i)
    (hcanon : ∀ i ∈ ids, parsePostID (toString i) = some i)
    (hhash : ∀ i ∈ ids, (hashGet s i).map Post.id = some i)
    (hL : 0 < L) :
    ∃ posts : List Post,
      getHotPostsByCursor s none L =
        .ok (posts,
          if (ids.take L.toNat).length = L.toNat ∧ 0 < (ids.take L.toNat).length
          then (ids.take L.toNat).getLast? else none) ∧
      posts.map Post.id = ids.take L.toNat := by
  have hLn : 0 < L.toNat := by omega
  obtain ⟨posts, heq, hmapid⟩ :=
    hotPageFrom_canonical s ids hmap hcanon hhash 0 L.toNat hLn
  rw [List.drop_zero] at heq hmapid
  refine ⟨posts, ?_, hmapid⟩
  unfold getHotPostsByCursor
  rw [if_neg (by omega)]
  show hotPageFrom s 0 L = _
  have hcast : ((L.toNat : Nat) : Int) = L := by omega
  have h0 : (((0 : Nat) : Int)) = (0 : Int) := by norm_num
  rw [h0, hcast] at heq
  exact heq

theorem getLast?_take_getElem? (l : List Nat) (n : Nat) (c : Nat)
    (hlen : (l.take n).length = n) (hn : 0 < n)
    (hc : (l.take n).getLast? = some c) : l[n - 1]? = some c := by
  rw [List.getLast?_eq_getElem?, hlen] at hc
  rwa [List.getElem?_take_of_lt (by omega)] at hc

theorem secondPage_canonical (s : CacheState) (ids : List Nat) (L : Int)
    (hmap : s.hotRank.map Prod.fst = ids.map fun i => toString i)
    (hnd : ids.Nodup)
    (hcanon : ∀ i ∈ ids, parsePostID (toString i) = some i)
    (hhash : ∀ i ∈ ids, (hashGet s i).map Post.id = some i)
    (hL : 0 < L) (c : Nat)
    (hc : ids[L.toNat - 1]? = some c) :
    ∃ posts2 : List Post,
      getHotPostsByCursor s (some c) L =
        .ok (posts2,
          if ((ids.drop L.toNat).take L.toNat).length = L.toNat ∧
              0 < ((ids.drop L.toNat).take L.toNat).length
          then ((ids.drop L.toNat).take L.toNat).getLast? else none) ∧
      posts2.map Post.id = (ids.drop L.toNat).take L.toNat := by
  have hLn : 0 < L.toNat := by omega
  have hrank := getPostRank_canonical s ids hmap hcanon hnd (L.toNat - 1) c hc
  obtain ⟨posts2, heq, hmapid⟩ :=
    hotPageFrom_canonical s ids hmap hcanon hhash L.toNat L.toNat hLn
  refine ⟨posts2, ?_, hmapid⟩
  unfold getHotPostsByCursor
  rw [if_neg (by omega)]
  show (let rank := getPostRank s c
        if (rank == -1) = true then Except.error CursorErr.cursorExpired
        else hotPageFrom s (rank + 1) L) = _
  dsimp only
  rw [hrank]
  rw [if_neg (by simp)]
  have hstep : (((L.toNat - 1 : Nat) : Int)) + 1 = ((L.toNat : Nat) : Int) := by
    omega
  have hcast : ((L.toNat : Nat) : Int) = L := by omega
  rw [hstep]
  nth_rewrite 2 [hcast] at heq
  exact heq

/-- C3 counterexample: on a snapshot whose ranking holds exactly limit ids
(ending in 2) but whose summary hash holds none of them, the call
returns an empty page with a null next-cursor, while the claim requires
next-cursor = 2 whenever the ranking yielded exactly limit ids. -/
theorem C3_counterexample_cursor_null_despite_full_slice :
    getHotPostsByCursor stC3miss none 2 = .ok ([], none) ∧
    getPostsByRange stC3miss 0 (0 + 2 - 1) = [1, 2] ∧
    (getPostsByRange stC3miss 0 (0 + 2 - 1)).length = (2 : Int).toNat :=
  ⟨rfl, rfl, rfl⟩

/-- C3 amended: over an unchanged snapshot whose hot ranking lists the
distinct ids in order and whose summary hash holds a summary for every
ranked id, a first page of size L followed by the page after its
returned cursor yields exactly the first 2L entries of the hot ranking,
in order and without duplicates or gaps; and each call's next-cursor is
the last id the ranking yielded exactly when the ranking yielded exactly
limit ids and at least one summary was found, and is null otherwise. -/
theorem C3_amended_cursor_pagination (s : CacheState) (ids : List Nat)
    (L : Int)
    (hmap : s.hotRank.map Prod.fst = ids.map fun i => toString i)
    (hnd : ids.Nodup)
    (hcanon : ∀ i ∈ ids, parsePostID (toString i) = some i)
    (hhash : ∀ i ∈ ids, (hashGet s i).map Post.id = some i)
    (hL : 0 < L) :
    (∀ (posts : List Post) (nc : Option Nat),
        getHotPostsByCursor s none L = .ok (posts, nc) →
        posts.map Post.id = ids.take L.toNat ∧
        nc = if (ids.take L.toNat).length = L.toNat ∧ 0 < posts.length
             then (ids.take L.toNat).getLast? else none) ∧
    (∀ (posts1 : List Post) (c : Nat) (posts2 : List Post) (nc2 : Option Nat),
        getHotPostsByCursor s none L = .ok (posts1, some c) →
        getHotPostsByCursor s (some c) L = .ok (posts2, nc2) →
        (posts1 ++ posts2).map Post.id = ids.take (2 * L.toNat) ∧
        ((posts1 ++ posts2).map Post.id).Nodup ∧
        nc2 = if ((ids.drop L.toNat).take L.toNat).length = L.toNat ∧
                0 < posts2.length
              then ((ids.drop L.toNat).take L.toNat).getLast? else none) := by
  obtain ⟨posts0, heq0, hmap0⟩ := firstPage_canonical s ids L hmap hcanon hhash hL
  constructor
  · intro posts nc h
    rw [heq0] at h
    simp only [Except.ok.injEq, Prod.mk.injEq] at h
    obtain ⟨hp, hc⟩ := h
    subst hp
    refine ⟨hmap0, ?_⟩
    rw [← hc]
    have hl0 : posts0.length = (ids.take L.toNat).length := by
      rw [← hmap0, List.length_map]
    rw [hl0]
  · intro posts1 c posts2 nc2 h1 h2
    rw [heq0] at h1
    simp only [Except.ok.injEq, Prod.mk.injEq] at h1
    obtain ⟨hp1, hc1⟩ := h1
    subst hp1
    by_cases hcond : (ids.take L.toNat).length = L.toNat ∧
        0 < (ids.take L.toNat).length
    · rw [if_pos hcond] at hc1
      have hLn : 0 < L.toNat := by omega
      have hidx : ids[L.toNat - 1]? = some c :=
        getLast?_take_getElem? ids L.toNat c hcond.1 hLn hc1
      obtain ⟨posts2x, heq2, hmap2⟩ :=
        secondPage_canonical s ids L hmap hnd hcanon hhash hL c hidx
      rw [heq2] at h2
      simp only [Except.ok.injEq, Prod.mk.injEq] at h2
      obtain ⟨hp2, hnc2⟩ := h2
      subst hp2
      have hcat : (posts0 ++ posts2x).map Post.id = ids.take (2 * L.toNat) := by
        rw [List.map_append, hmap0, hmap2]
        rw [show 2 * L.toNat = L.toNat + L.toNat from by omega]
        exact (List.take_add ids L.toNat L.toNat).symm
      have hlen2 : posts2x.length = ((ids.drop L.toNat).take L.toNat).length := by
        rw [← hmap2, List.length_map]
      refine ⟨hcat, ?_, ?_⟩
      · rw [hcat]
        exact (List.take_sublist _ _).nodup hnd
      · rw [hlen2]
        exact hnc2.symm
    · rw [if_neg hcond] at hc1
      cases hc1

/-- C3 amended witness: on the three-post snapshot, page(none, 2) then
page(9, 2) return exactly the first four ranking entries — here all
three ids — in order and without duplicates, and the second page's
cursor is null because its slice fell short of the limit. -/
theorem C3_amended_cursor_pagination_witness :
    (([⟨10, "p10", 1, 500, 0, false⟩, ⟨9, "p9", 1, 400, 0, false⟩] ++
        [⟨8, "p8", 1, 300, 0, false⟩] : List Post).map Post.id =
      [10, 9, 8].take (2 * (2 : Int).toNat)) ∧
    ((([⟨10, "p10", 1, 500, 0, false⟩, ⟨9, "p9", 1, 400, 0, false⟩] ++
        [⟨8, "p8", 1, 300, 0, false⟩] : List Post).map Post.id).Nodup) ∧
    (none : Option Nat) =
      (if (([10, 9, 8].drop (2 : Int).toNat).take (2 : Int).toNat).length =
            (2 : Int).toNat ∧
          0 < ([⟨8, "p8", 1, 300, 0, false⟩] : List Post).length
        then (([10, 9, 8].drop (2 : Int).toNat).take (2 : Int).toNat).getLast?
        else none) :=
  (C3_amended_cursor_pagination stC3ok [10, 9, 8] 2 (by decide) (by decide)
      (by decide) (by decide) (by decide)).2
    [⟨10, "p10", 1, 500, 0, false⟩, ⟨9, "p9", 1, 400, 0, false⟩] 9
    [⟨8, "p8", 1, 300, 0, false⟩] none rfl rfl

end Theorems

end PostSvc
